import Mathlib

/-!
Verification development for the hardware-aware model selection engine and the
component specification extraction engine of the stock_inventory repository.

The definitions below are shallow embeddings of the Python source:
  - backend/services/ai_service.py   (model discovery data, get_quant_rank,
    detect_params_b, _select_best_model, the _initialize_llm fallback cascade)
  - print_selected_model.py          (get_quant_rank, detect_params_b, select_model)
  - backend/services/web_scraping_service.py (_detect_component_type,
    _extract_component_specifications and the per-family spec extractors)

File sizes are modelled as the `file_size` recorded for each catalog entry
(os.path.getsize of an unchanging file), machine integers as Nat/Int, and the
fallible selector as an Except value whose single error constructor models the
exception escaping `min()` over an empty candidate generator.  Regular
expression matching inside the classifier and the extractors is abstracted by
an explicit match oracle parameter; the pattern tables themselves are
transcribed verbatim from the source.
-/

namespace StockInventory

/-- Embeds os.path.basename for POSIX paths: the part after the last slash. -/
def basename (p : String) : String :=
  String.mk ((p.data.reverse.takeWhile (fun c => c != '/')).reverse)

/-- Character-level prefix test, first argument is the candidate prefix. -/
def chars_start : List Char → List Char → Bool
  | [], _ => true
  | _ :: _, [] => false
  | c :: cs, d :: ds => c == d && chars_start cs ds

/-- Embeds Python `s.startswith(pre)` as a character-wise prefix check. -/
def str_starts_with (s pre : String) : Bool :=
  chars_start pre.data s.data

/-- Embeds Python `s.upper()` character-wise (the tags involved are ASCII). -/
def str_to_upper (s : String) : String := String.mk (s.data.map Char.toUpper)

/-- Embeds Python `s.lower()` character-wise (the names involved are ASCII). -/
def str_to_lower (s : String) : String := String.mk (s.data.map Char.toLower)

/-! ## Quantization ranker

`get_quant_rank` appears, textually identical, in
ai_service.py (inside `_select_best_model`) and in print_selected_model.py. -/

/-- The fixed quantization table `quant_rank` from the source. -/
def quant_rank_table : List (String × Nat) :=
  [("F32", 7), ("F16", 6), ("Q8_0", 5), ("Q6_K", 4),
   ("Q5_K_M", 3), ("Q5_K", 3), ("Q5_0", 3),
   ("Q4_K_M", 2), ("Q4_K_S", 2), ("Q4_0", 2),
   ("Q3_K", 1), ("Q2_K", 0)]

/-- Embeds `get_quant_rank(q)`: uppercase, exact table lookup, then prefix
normalization, defaulting to the mid rank 2. -/
def get_quant_rank (q : String) : Nat :=
  let q := str_to_upper q
  match quant_rank_table.lookup q with
  | some r => r
  | none =>
    if str_starts_with q "Q8" then 5
    else if str_starts_with q "Q6" then 4
    else if str_starts_with q "Q5" then 3
    else if str_starts_with q "Q4" then 2
    else if str_starts_with q "Q3" then 1
    else if str_starts_with q "Q2" then 0
    else 2

/-! ## Parameter-size estimator -/

/-- Numeric value of an ASCII digit character. -/
def digit_val (c : Char) : Nat := c.toNat - 48

/-- Embeds `re.search(r"(\d\x7b1,2\x7d)b", name)` on a lowercased name:
leftmost match, preferring two digits over one at each position, returning the
captured number. -/
def find_params_b : List Char → Option Nat
  | [] => none
  | c :: rest =>
    if c.isDigit then
      match rest with
      | d :: e :: _ =>
        if d.isDigit && e == 'b' then some (10 * digit_val c + digit_val d)
        else if d == 'b' then some (digit_val c)
        else find_params_b rest
      | [d] =>
        if d == 'b' then some (digit_val c) else find_params_b rest
      | [] => none
    else find_params_b rest

/-- Embeds `detect_params_b(path)` (identical in ai_service.py and
print_selected_model.py).  The size of the file at `path` is passed
explicitly. -/
def detect_params_b (path : String) (size : Nat) : Nat :=
  let name := str_to_lower (basename path)
  match find_params_b name.data with
  | some k => k
  | none =>
    if size > 6000000000 then 12
    else if size > 3000000000 then 7
    else if size > 1800000000 then 4
    else 3

/-! ## Model catalog entries and the selection heuristic -/

/-- One catalog entry as assembled by `_discover_models` / `discover_models`:
the model path, the recorded file size and the quantization tag detected from
the filename.  The optional mmproj pairing is not consulted by the selection
logic and is omitted. -/
structure Model where
  gguf_path : String
  file_size : Nat
  quant : String
deriving DecidableEq, Repr

/-- Estimated parameter count of a catalog entry, exactly as the selectors
compute it: `detect_params_b(m[..gguf_path])` with the file size of that
path. -/
def model_params_b (m : Model) : Nat :=
  detect_params_b m.gguf_path m.file_size

/-- Failure of the selector.  The only exception that can escape the selection
code is the ValueError raised by `min()` over an empty candidate generator,
which happens exactly when the catalog is empty; the spec names this condition
NoCandidatesError. -/
inductive SelectError where
  | NoCandidatesError
deriving DecidableEq, Repr

/-- The target quantization rank if/elif chain over VRAM, identical in
`_select_best_model` and `select_model`. -/
def target_rank_for (vram_mb : Nat) : Nat :=
  if vram_mb ≥ 20000 then 4
  else if vram_mb ≥ 12000 then 3
  else if vram_mb ≥ 8000 then 2
  else if vram_mb ≥ 6000 then 1
  else 0

/-- The maximum parameter size if/elif chain over VRAM, identical in
`_select_best_model` and `select_model`. -/
def max_params_for (vram_mb : Nat) : Nat :=
  if vram_mb ≥ 16000 then 13
  else if vram_mb ≥ 12000 then 12
  else if vram_mb ≥ 8000 then 7
  else if vram_mb ≥ 6000 then 7
  else if vram_mb ≥ 4096 then 4
  else 3

/-- A scored candidate tuple `(params_b, closeness, size, m)`. -/
abbrev Cand := Nat × Int × Nat × Model

/-- The sort key `lambda x: (x[0], x[1], x[2])`. -/
def cand_key (c : Cand) : Nat × Int × Nat :=
  (c.1, c.2.1, c.2.2.1)

/-- Lexicographic greater-or-equal on sort keys; `key_ge a b` holds when, in
the descending stable sort, an element with key `a` may stay in front of a
later element with key `b`. -/
def key_ge (a b : Nat × Int × Nat) : Bool :=
  decide (b.1 < a.1) ||
    (decide (a.1 = b.1) &&
      (decide (b.2.1 < a.2.1) ||
        (decide (a.2.1 = b.2.1) && decide (b.2.2 ≤ a.2.2))))

/-- Insertion step of the stable descending sort: `c` goes in front of the
first element whose key it ties or beats. -/
def insert_desc (c : Cand) : List Cand → List Cand
  | [] => [c]
  | d :: ds => if key_ge (cand_key c) (cand_key d) then c :: d :: ds
               else d :: insert_desc c ds

/-- Embeds `candidates.sort(key=lambda x: (x[0], x[1], x[2]), reverse=True)`:
a stable sort placing lexicographically larger keys first. -/
def sort_candidates_desc : List Cand → List Cand
  | [] => []
  | c :: cs => insert_desc c (sort_candidates_desc cs)

/-- Embeds the candidate scoring loop: for each remaining model build
`(params_b, -abs(rank - target_rank), file_size, m)`. -/
def mk_candidates (ms : List Model) (target_rank : Nat) : List Cand :=
  ms.map (fun m =>
    (model_params_b m,
     -((((get_quant_rank m.quant : Int) - (target_rank : Int)).natAbs : Int)),
     m.file_size, m))

/-- Embeds the tail of both selectors: `if not candidates: return models[0]`,
otherwise sort descending and return the model of the first tuple. -/
def pick_best (cands : List Cand) (models : List Model) : Except SelectError Model :=
  match cands with
  | [] =>
    match models with
    | [] => Except.error SelectError.NoCandidatesError
    | m :: _ => Except.ok m
  | _ :: _ =>
    match sort_candidates_desc cands with
    | [] => Except.error SelectError.NoCandidatesError
    | best :: _ => Except.ok best.2.2.2

/-- Embeds `min(detect_params_b(m[..gguf_path]) for m in models)` for a
nonempty catalog (0 on an empty one, where the source raises instead). -/
def min_params_b : List Model → Nat
  | [] => 0
  | m0 :: rest => rest.foldl (fun acc x => Nat.min acc (model_params_b x)) (model_params_b m0)

/-- Embeds `AIService._select_best_model(models, preferred_model, vram_mb)`. -/
def select_best_model (models : List Model) (preferred_model : String)
    (vram_mb : Nat) : Except SelectError Model :=
  match (if preferred_model ≠ "" then
           models.find? (fun m =>
             str_starts_with (str_to_lower (basename m.gguf_path))
               (str_to_lower preferred_model))
         else none) with
  | some m => Except.ok m
  | none =>
    let target_rank := target_rank_for vram_mb
    let max_params_b := max_params_for vram_mb
    match models.filter (fun m => decide (model_params_b m ≤ max_params_b)) with
    | w :: ws => pick_best (mk_candidates (w :: ws) target_rank) models
    | [] =>
      match models with
      | [] => Except.error SelectError.NoCandidatesError
      | m0 :: rest =>
        let min_b := min_params_b (m0 :: rest)
        pick_best
          (mk_candidates ((m0 :: rest).filter (fun m => decide (model_params_b m = min_b)))
            target_rank)
          models

/-- Embeds `print_selected_model.select_model(models, vram_mb)`. -/
def select_model (models : List Model) (vram_mb : Nat) : Except SelectError Model :=
  let target_rank := target_rank_for vram_mb
  let max_params_b := max_params_for vram_mb
  match models.filter (fun m => decide (model_params_b m ≤ max_params_b)) with
  | w :: ws => pick_best (mk_candidates (w :: ws) target_rank) models
  | [] =>
    match models with
    | [] => Except.error SelectError.NoCandidatesError
    | m0 :: rest =>
      let min_b := min_params_b (m0 :: rest)
      pick_best
        (mk_candidates ((m0 :: rest).filter (fun m => decide (model_params_b m = min_b)))
          target_rank)
        models

/-! ## Initialization cascade

`AIService._initialize_llm` passes a fixed set of sampling options to every
`try_init` call; the parameters that vary between attempts are the model path,
the context size, the thread count and the GPU layer count, which is what an
`InitAttempt` records.  Whether a given `LlamaCpp(...)` construction succeeds
or raises is abstracted by an oracle `ok : InitAttempt → Bool`. -/

/-- The varying arguments of one `try_init` call. -/
structure InitAttempt where
  model_path : String
  n_ctx : Nat
  n_threads : Nat
  n_gpu_layers : Int
deriving DecidableEq, Repr

/-- The service state touched by the cascade: `self.llm` (the attempt whose
initialization succeeded, if any) and `self.model_name`. -/
structure CascadeState where
  llm : Option InitAttempt
  model_name : String
deriving DecidableEq, Repr

/-- Insertion step of the stable ascending sort by file size. -/
def insert_by_size (m : Model) : List Model → List Model
  | [] => [m]
  | x :: xs => if m.file_size ≤ x.file_size then m :: x :: xs
               else x :: insert_by_size m xs

/-- Embeds `sorted(models, key=lambda m: os.path.getsize(m[..gguf_path]))`. -/
def sort_models_by_size : List Model → List Model
  | [] => []
  | m :: ms => insert_by_size m (sort_models_by_size ms)

/-- Embeds the `for alt in alt_models` loop: skip the failed primary, set
`self.model_name` to the alternative basename, try a CPU-only reduced-context
initialization, stop at the first success.  Returns the resulting `self.llm`,
the final `self.model_name` (given the name `name0` the loop starts from) and
the list of failed attempts in order. -/
def alt_loop (ok : InitAttempt → Bool) (model_path : String)
    (reduced_ctx n_threads : Nat) (name0 : String) :
    List Model → Option InitAttempt × String × List InitAttempt
  | [] => (none, name0, [])
  | alt :: rest =>
    if alt.gguf_path == model_path then
      alt_loop ok model_path reduced_ctx n_threads name0 rest
    else
      let a : InitAttempt := ⟨alt.gguf_path, reduced_ctx, n_threads, 0⟩
      let nm := basename alt.gguf_path
      if ok a then (some a, nm, [])
      else
        let res := alt_loop ok model_path reduced_ctx n_threads nm rest
        (res.1, res.2.1, a :: res.2.2)

/-- Embeds the nested try/except fallback chain of `_initialize_llm` from the
point where the selected `model_path` and hardware parameters are known:
primary attempt, CPU-only attempt, reduced-context CPU-only attempt, then
alternative candidates by ascending file size.  Returns the final state and
the list of failed attempts in order. -/
def init_llm_cascade (ok : InitAttempt → Bool) (models : List Model)
    (model_path : String) (n_ctx n_threads : Nat) (gpu_layers : Int) :
    CascadeState × List InitAttempt :=
  let name0 := basename model_path
  let a1 : InitAttempt := ⟨model_path, n_ctx, n_threads, gpu_layers⟩
  if ok a1 then (⟨some a1, name0⟩, [])
  else
    let a2 : InitAttempt := ⟨model_path, n_ctx, n_threads, 0⟩
    if ok a2 then (⟨some a2, name0⟩, [a1])
    else
      let reduced_ctx := max (min n_ctx 4096) 2048
      let a3 : InitAttempt := ⟨model_path, reduced_ctx, n_threads, 0⟩
      if ok a3 then (⟨some a3, name0⟩, [a1, a2])
      else
        let res := alt_loop ok model_path reduced_ctx n_threads name0
          (sort_models_by_size models)
        (⟨res.1, res.2.1⟩, a1 :: a2 :: a3 :: res.2.2)

/-- The fixed sequence of configurations the cascade is prepared to attempt:
primary, CPU-only, reduced context, then the alternatives by ascending file
size with the primary path skipped. -/
def cascade_attempts (models : List Model) (model_path : String)
    (n_ctx n_threads : Nat) (gpu_layers : Int) : List InitAttempt :=
  let reduced_ctx := max (min n_ctx 4096) 2048
  (⟨model_path, n_ctx, n_threads, gpu_layers⟩ : InitAttempt) ::
    (⟨model_path, n_ctx, n_threads, 0⟩ : InitAttempt) ::
    (⟨model_path, reduced_ctx, n_threads, 0⟩ : InitAttempt) ::
    ((sort_models_by_size models).filter (fun m => !(m.gguf_path == model_path))).map
      (fun m => (⟨m.gguf_path, reduced_ctx, n_threads, 0⟩ : InitAttempt))

/-! ## Component type classifier

`WebScrapingService._detect_component_type` scores the lowercased
concatenation of component name and text against a fixed table of per-family
regular expression patterns.  Whether `re.search(pattern, text)` finds a match
is abstracted by an oracle `search : String → String → Bool`; the pattern
table is transcribed verbatim. -/

/-- The `type_patterns` table of `_detect_component_type`, in source order. -/
def type_patterns : List (String × List String) :=
  [("Resistor",
    ["\\b(resistor|resistance|r\\d\x7b1,4\x7d)\\b",
     "\\b(ohm|Ω|kΩ|mΩ)\\b",
     "\\btolerance\\s*[±]?\\d+%",
     "\\bpower\\s*rating\\b"]),
   ("Capacitor",
    ["\\b(capacitor|capacitance|c\\d\x7b1,4\x7d)\\b",
     "\\b(μf|nf|pf|farad)\\b",
     "\\belectrolytic|ceramic|tantalum\\b",
     "\\besr|equivalent\\s*series\\s*resistance\\b"]),
   ("Inductor",
    ["\\b(inductor|coil|choke|l\\d\x7b1,4\x7d)\\b",
     "\\b(μh|nh|mh|henry)\\b",
     "\\bsaturation\\s*current\\b",
     "\\bdc\\s*resistance|dcr\\b"]),
   ("Diode",
    ["\\b(diode|rectifier)\\b",
     "\\b(vf|forward\\s*voltage)\\b",
     "\\b(vr|reverse\\s*voltage)\\b",
     "\\b(1n\\d\x7b4\x7d|1smd|schottky|zener)\\b"]),
   ("LED",
    ["\\b(led|light\\s*emitting\\s*diode)\\b",
     "\\b(luminous|brightness)\\b",
     "\\b(wavelength|nm)\\b",
     "\\b(viewing\\s*angle)\\b"]),
   ("Transistor",
    ["\\b(transistor|BJT)\\b",
     "\\b(npn|pnp)\\b",
     "\\b(hfe|beta|gain)\\b",
     "\\b(collector|emitter|base)\\b"]),
   ("MOSFET",
    ["\\b(mosfet|fet)\\b",
     "\\b(n-channel|p-channel)\\b",
     "\\b(vgs|gate\\s*threshold)\\b",
     "\\b(rds|drain\\s*source)\\b"]),
   ("Voltage Regulator",
    ["\\b(regulator|ldo)\\b",
     "\\b(78\\d+|lm\\d+|mc\\d+)\\b",
     "\\b(dropout\\s*voltage)\\b",
     "\\b(output\\s*voltage|vout)\\b"]),
   ("Op-Amp",
    ["\\b(op.?amp|operational\\s*amplifier|comparator)\\b",
     "\\b(lm\\d+|tl\\d+|ad\\d+)\\b",
     "\\b(slew\\s*rate|offset\\s*voltage)\\b",
     "\\b(gain\\s*bandwidth)\\b"]),
   ("Microcontroller",
    ["\\b(microcontroller|microprocessor|ic|chip)\\b",
     "\\b(atmega|pic|stm32|esp32|arduino)\\b",
     "\\b(flash|ram|eeprom)\\b",
     "\\b(mhz|clock)\\b"]),
   ("Crystal",
    ["\\b(crystal|oscillator|xtal)\\b",
     "\\b(hz|mhz)\\b",
     "\\b(load\\s*capacitance)\\b",
     "\\b(frequency\\s*tolerance)\\b"]),
   ("Relay",
    ["\\b(relay|switch)\\b",
     "\\b(spdt|dpdt|spst)\\b",
     "\\b(coil\\s*voltage)\\b",
     "\\b(contact\\s*rating)\\b"]),
   ("Transformer",
    ["\\b(transformer)\\b",
     "\\b(primary|secondary)\\b",
     "\\b(turns\\s*ratio)\\b",
     "\\b(va|watts?)\\b"]),
   ("Sensor",
    ["\\b(sensor|detector)\\b",
     "\\b(temperature|pressure|motion|light)\\b",
     "\\b(analog|digital|i2c|spi)\\b",
     "\\b(measurement\\s*range)\\b"])]

/-- Embeds `search_text = (component_name + " " + text).lower()`. -/
def search_text (component_name text : String) : String :=
  str_to_lower (component_name ++ " " ++ text)

/-- Score of one family: the number of its patterns that match at least once,
each contributing at most 1. -/
def type_score (search : String → String → Bool) (st : String)
    (pats : List String) : Nat :=
  pats.countP (fun p => search p st)

/-- Embeds the `type_scores` dict: families in source order, keeping only
strictly positive scores (dict insertion order is the table order). -/
def type_scores (search : String → String → Bool) (st : String) :
    List (String × Nat) :=
  type_patterns.filterMap (fun fp =>
    let s := type_score search st fp.2
    if 0 < s then some (fp.1, s) else none)

/-- Running maximum of Python `max(..., key=...)`: a later entry replaces the
current best only when strictly greater, so the first maximum wins. -/
def py_max_go (b : String × Nat) : List (String × Nat) → String × Nat
  | [] => b
  | x :: xs => py_max_go (if b.2 < x.2 then x else b) xs

/-- Embeds `max(type_scores, key=type_scores.get)` guarded by
`if type_scores:`. -/
def py_max_key : List (String × Nat) → Option (String × Nat)
  | [] => none
  | x :: xs => some (py_max_go x xs)

/-- Embeds `_detect_component_type(text, component_name)`: `none` corresponds
to the source returning None, which the spec reads as the label unknown with
confidence 0. -/
def detect_component_type (search : String → String → Bool)
    (text component_name : String) : Option String :=
  (py_max_key (type_scores search (search_text component_name text))).map Prod.fst

/-! ## Specification extractor

Every `_extract_*_specs` helper follows one template: `re.findall` a pattern,
keep the first one or two matches, and append a formatted `"Label: value"`
string.  For a multi-group pattern the value is `match[1]`, the second entry
of the match tuple.  For a single-group pattern `findall` returns plain
strings; most such rules use the match string itself (the Type rules apply
`.upper()` or `.title()` to it), but six rules — regulator Efficiency,
microcontroller Flash/RAM/EEPROM and sensor Sensitivity/Accuracy — still
write `match[1]`, which in Python indexes the second character of the
captured string and raises IndexError on a one-character capture; that
exception aborts the whole rule body and is absorbed into None by the
catch-all of `_extract_component_specifications`.  The helpers are encoded as
rule lists applied with a findall oracle
`findall : String → String → List (List String)` that maps a pattern and the
text to the capture-group lists of its matches, a one-element list per match
of a single-group pattern. -/

/-- Post-processing applied to a captured value before formatting. -/
inductive ValueTransform where
  | idT
  | upperT
  | titleT
deriving DecidableEq, Repr

/-- Embeds Python `str.title()`: the first letter of every alphabetic run is
uppercased and the rest lowercased. -/
def py_title_go : Bool → List Char → List Char
  | _, [] => []
  | prevAlpha, c :: cs =>
    (if c.isAlpha then (if prevAlpha then c.toLower else c.toUpper) else c) ::
      py_title_go c.isAlpha cs

/-- String wrapper of `py_title_go`. -/
def py_title (s : String) : String :=
  String.mk (py_title_go false s.data)

/-- Apply a `ValueTransform`. -/
def apply_transform : ValueTransform → String → String
  | ValueTransform.idT, s => s
  | ValueTransform.upperT, s => str_to_upper s
  | ValueTransform.titleT, s => py_title s

/-- How a rule reads its value out of one findall match. -/
inductive ValueAccess where
  /-- Python match[i] on the capture tuple of a multi-group pattern. -/
  | groupIdx (i : Nat)
  /-- The match string of a single-group pattern, used directly. -/
  | matchStr
  /-- Python match[i] applied to the match string of a single-group pattern:
  character i of the capture, raising IndexError when it is shorter. -/
  | strChar (i : Nat)
deriving DecidableEq, Repr

/-- Evaluate a value access against the capture list of one match; the error
value models the IndexError raised by a too-short capture under strChar. -/
def access_value : ValueAccess → List String → Except Unit String
  | ValueAccess.groupIdx i, groups => Except.ok (groups.getD i "")
  | ValueAccess.matchStr, groups => Except.ok (groups.getD 0 "")
  | ValueAccess.strChar i, groups =>
    match (groups.getD 0 "").data[i]? with
    | some c => Except.ok (String.mk [c])
    | none => Except.error ()

/-- One findall-and-format rule of an `_extract_*_specs` helper: the output
label, the regex pattern, the value access, how many matches are kept, and
the value transform. -/
structure SpecRule where
  label : String
  pattern : String
  access : ValueAccess
  takeN : Nat
  transform : ValueTransform
deriving DecidableEq, Repr

/-- Shorthand for the common multi-group rule formatting match[1]. -/
def rule (label pattern : String) (takeN : Nat) : SpecRule :=
  ⟨label, pattern, ValueAccess.groupIdx 1, takeN, ValueTransform.idT⟩

/-- Shorthand for a single-group rule formatting the match string itself. -/
def rule_whole (label pattern : String) (takeN : Nat) : SpecRule :=
  ⟨label, pattern, ValueAccess.matchStr, takeN, ValueTransform.idT⟩

/-- Shorthand for the six single-group rules that write match[1] on the match
string: the second character of the capture, IndexError when it is shorter. -/
def rule_str1 (label pattern : String) (takeN : Nat) : SpecRule :=
  ⟨label, pattern, ValueAccess.strChar 1, takeN, ValueTransform.idT⟩

/-- Rules of `_extract_resistor_specs`. -/
def resistor_spec_rules : List SpecRule :=
  [rule "Resistance" "(?i)(resistance|value)[:=]\\s*([^\\s,;]+)" 2,
   rule "Power" "(?i)(power|wattage)[:=]\\s*([^\\s,;]+)" 1,
   rule_whole "Tolerance" "(?i)tolerance[:=]\\s*[±]?([^\\s,;]+)" 1,
   rule "Temp Coeff" "(?i)(temp|temperature).*coefficient[:=]\\s*([^\\s,;]+)" 1,
   rule "Max Voltage" "(?i)(max|working|rated).*voltage[:=]\\s*([^\\s,;]+)" 1]

/-- Rules of `_extract_capacitor_specs`. -/
def capacitor_spec_rules : List SpecRule :=
  [rule "Capacitance" "(?i)(capacitance|value)[:=]\\s*([^\\s,;]+)" 2,
   rule "Voltage" "(?i)(rated|working).*voltage[:=]\\s*([^\\s,;]+)" 1,
   rule_whole "Tolerance" "(?i)tolerance[:=]\\s*[±]?([^\\s,;]+)" 1,
   rule_whole "ESR" "(?i)esr[:=]\\s*([^\\s,;]+)" 1,
   rule_whole "Leakage" "(?i)leakage.*current[:=]\\s*([^\\s,;]+)" 1]

/-- Rules of `_extract_inductor_specs`. -/
def inductor_spec_rules : List SpecRule :=
  [rule "Inductance" "(?i)(inductance|value)[:=]\\s*([^\\s,;]+)" 2,
   rule_whole "Sat Current" "(?i)saturation.*current[:=]\\s*([^\\s,;]+)" 1,
   rule "DCR" "(?i)(dcr|dc.*resistance)[:=]\\s*([^\\s,;]+)" 1,
   rule "Q Factor" "(?i)(q|quality).*factor[:=]\\s*([^\\s,;]+)" 1,
   rule "SRF" "(?i)(srf|self.?resonant).*frequency[:=]\\s*([^\\s,;]+)" 1]

/-- Rules of `_extract_diode_specs`. -/
def diode_spec_rules : List SpecRule :=
  [rule "Vf" "(?i)(vf|forward.*voltage)[:=]\\s*([^\\s,;]+)" 1,
   rule "Vr" "(?i)(vr|reverse.*voltage|max.*reverse)[:=]\\s*([^\\s,;]+)" 1,
   rule "Ir" "(?i)(reverse.*leakage|ir)[:=]\\s*([^\\s,;]+)" 1,
   rule "If" "(?i)(if|forward.*current)[:=]\\s*([^\\s,;]+)" 1,
   rule "Trr" "(?i)(trr|reverse.*recovery.*time)[:=]\\s*([^\\s,;]+)" 1]

/-- Rules of `_extract_led_specs`. -/
def led_spec_rules : List SpecRule :=
  [rule "Vf" "(?i)(vf|forward.*voltage)[:=]\\s*([^\\s,;]+)" 1,
   rule "If" "(?i)(if|forward.*current)[:=]\\s*([^\\s,;]+)" 1,
   rule "Intensity" "(?i)(luminous.*intensity|brightness)[:=]\\s*([^\\s,;]+)" 1,
   rule "Angle" "(?i)(viewing.*angle)[:=]\\s*([^\\s,;]+)" 1,
   rule "Wavelength" "(?i)(wavelength|λ)[:=]\\s*([^\\s,;]+)" 1]

/-- Rules of `_extract_transistor_specs`. -/
def transistor_spec_rules : List SpecRule :=
  [⟨"Type", "(?i)\\b(npn|pnp)\\b", ValueAccess.matchStr, 1, ValueTransform.upperT⟩,
   rule "Ic" "(?i)(ic|collector.*current)[:=]\\s*([^\\s,;]+)" 1,
   rule "Vce" "(?i)(vce|collector.*emitter.*voltage)[:=]\\s*([^\\s,;]+)" 1,
   rule "Gain" "(?i)(hfe|beta|gain)[:=]\\s*([^\\s,;]+)" 1,
   rule "fT" "(?i)(ft|transition.*frequency)[:=]\\s*([^\\s,;]+)" 1,
   rule "Ptot" "(?i)(power.*dissipation|ptot)[:=]\\s*([^\\s,;]+)" 1]

/-- Rules of `_extract_mosfet_specs`. -/
def mosfet_spec_rules : List SpecRule :=
  [⟨"Type", "(?i)\\b(n-channel|p-channel)\\b", ValueAccess.matchStr, 1, ValueTransform.titleT⟩,
   rule "Vds" "(?i)(vds|drain.*source.*voltage)[:=]\\s*([^\\s,;]+)" 1,
   rule "Vgs(th)" "(?i)(vgs|gate.*threshold.*voltage)[:=]\\s*([^\\s,;]+)" 1,
   rule "Id" "(?i)(id|drain.*current)[:=]\\s*([^\\s,;]+)" 1,
   rule "Rds(on)" "(?i)(rds|rds\\(on\\))[:=]\\s*([^\\s,;]+)" 1,
   rule "Qg" "(?i)(qg|gate.*charge)[:=]\\s*([^\\s,;]+)" 1]

/-- Rules of `_extract_regulator_specs`. -/
def regulator_spec_rules : List SpecRule :=
  [rule "Vin" "(?i)(input.*voltage|vin)[:=]\\s*([^\\s,;]+)" 1,
   rule "Vout" "(?i)(output.*voltage|vout)[:=]\\s*([^\\s,;]+)" 1,
   rule "Iout" "(?i)(output.*current|iout)[:=]\\s*([^\\s,;]+)" 1,
   rule "Dropout" "(?i)(dropout.*voltage)[:=]\\s*([^\\s,;]+)" 1,
   rule_str1 "Efficiency" "(?i)efficiency[:=]\\s*([^\\s,;]+)" 1,
   rule "Iq" "(?i)(iq|quiescent.*current)[:=]\\s*([^\\s,;]+)" 1]

/-- Rules of `_extract_opamp_specs`. -/
def opamp_spec_rules : List SpecRule :=
  [rule "Vos" "(?i)(vos|offset.*voltage)[:=]\\s*([^\\s,;]+)" 1,
   rule "Ib" "(?i)(ib|bias.*current)[:=]\\s*([^\\s,;]+)" 1,
   rule "Slew Rate" "(?i)(slew.*rate)[:=]\\s*([^\\s,;]+)" 1,
   rule "GBP" "(?i)(gain.*bandwidth|gbp)[:=]\\s*([^\\s,;]+)" 1,
   rule "Vcc" "(?i)(supply.*voltage|vcc)[:=]\\s*([^\\s,;]+)" 1]

/-- Rules of `_extract_microcontroller_specs`. -/
def microcontroller_spec_rules : List SpecRule :=
  [rule "Vcc" "(?i)(supply.*voltage|vcc|operating.*voltage)[:=]\\s*([^\\s,;]+)" 1,
   rule "Frequency" "(?i)(operating.*frequency|clock.*speed)[:=]\\s*([^\\s,;]+)" 1,
   rule_str1 "Flash" "(?i)flash[:=]\\s*([^\\s,;]+)" 1,
   rule_str1 "RAM" "(?i)ram[:=]\\s*([^\\s,;]+)" 1,
   rule_str1 "EEPROM" "(?i)eeprom[:=]\\s*([^\\s,;]+)" 1,
   rule "Temp Range" "(?i)(temperature.*range|operating.*temp)[:=]\\s*([^\\s,;]+)" 1]

/-- Rules of `_extract_crystal_specs`. -/
def crystal_spec_rules : List SpecRule :=
  [rule "Frequency" "(?i)(frequency|freq)[:=]\\s*([^\\s,;]+)" 1,
   rule "Load Cap" "(?i)(load.*capacitance|cl)[:=]\\s*([^\\s,;]+)" 1,
   rule "Tolerance" "(?i)(frequency.*tolerance|tolerance)[:=]\\s*([^\\s,;]+)" 1,
   rule "Drive Level" "(?i)(drive.*level)[:=]\\s*([^\\s,;]+)" 1]

/-- Rules of `_extract_relay_specs`. -/
def relay_spec_rules : List SpecRule :=
  [rule "Coil Voltage" "(?i)(coil.*voltage)[:=]\\s*([^\\s,;]+)" 1,
   rule "Coil Resistance" "(?i)(coil.*resistance)[:=]\\s*([^\\s,;]+)" 1,
   rule "Contact Rating" "(?i)(contact.*rating)[:=]\\s*([^\\s,;]+)" 1,
   rule "Contact Form" "(?i)(contact.*form|configuration)[:=]\\s*([^\\s,;]+)" 1]

/-- Rules of `_extract_transformer_specs`. -/
def transformer_spec_rules : List SpecRule :=
  [rule "Primary V" "(?i)(primary.*voltage)[:=]\\s*([^\\s,;]+)" 1,
   rule "Secondary V" "(?i)(secondary.*voltage)[:=]\\s*([^\\s,;]+)" 1,
   rule "Power" "(?i)(power.*rating|va|watts?)[:=]\\s*([^\\s,;]+)" 1,
   rule "Turns Ratio" "(?i)(turns.*ratio)[:=]\\s*([^\\s,;]+)" 1]

/-- Rules of `_extract_sensor_specs`. -/
def sensor_spec_rules : List SpecRule :=
  [rule "Vcc" "(?i)(supply.*voltage|vcc)[:=]\\s*([^\\s,;]+)" 1,
   rule "Output" "(?i)(output.*type)[:=]\\s*([^\\s,;]+)" 1,
   rule "Range" "(?i)(measurement.*range|range)[:=]\\s*([^\\s,;]+)" 1,
   rule_str1 "Sensitivity" "(?i)sensitivity[:=]\\s*([^\\s,;]+)" 1,
   rule_str1 "Accuracy" "(?i)accuracy[:=]\\s*([^\\s,;]+)" 1]

/-- Rules of `_extract_generic_specs` (unknown component types). -/
def generic_spec_rules : List SpecRule :=
  [rule_whole "Voltage" "(?i)voltage[:=]\\s*([^\\s,;]+)" 2,
   rule_whole "Current" "(?i)current[:=]\\s*([^\\s,;]+)" 2,
   rule_whole "Power" "(?i)power[:=]\\s*([^\\s,;]+)" 1,
   rule_whole "Frequency" "(?i)frequency[:=]\\s*([^\\s,;]+)" 1]

/-- Embeds the if/elif dispatch of `_extract_component_specifications`. -/
def spec_rules_for : Option String → List SpecRule
  | some "Resistor" => resistor_spec_rules
  | some "Capacitor" => capacitor_spec_rules
  | some "Inductor" => inductor_spec_rules
  | some "Diode" => diode_spec_rules
  | some "LED" => led_spec_rules
  | some "Transistor" => transistor_spec_rules
  | some "MOSFET" => mosfet_spec_rules
  | some "Voltage Regulator" => regulator_spec_rules
  | some "Op-Amp" => opamp_spec_rules
  | some "Microcontroller" => microcontroller_spec_rules
  | some "Crystal" => crystal_spec_rules
  | some "Relay" => relay_spec_rules
  | some "Transformer" => transformer_spec_rules
  | some "Sensor" => sensor_spec_rules
  | _ => generic_spec_rules

/-- Format the kept matches of one rule in order, propagating the IndexError
a string-indexing access may raise. -/
def format_matches (r : SpecRule) : List (List String) → Except Unit (List String)
  | [] => Except.ok []
  | groups :: rest =>
    match access_value r.access groups with
    | Except.error e => Except.error e
    | Except.ok v =>
      match format_matches r rest with
      | Except.error e => Except.error e
      | Except.ok vs =>
        Except.ok ((r.label ++ ": " ++ apply_transform r.transform v) :: vs)

/-- Apply one extraction rule:
`for match in re.findall(pattern, text)[:takeN]: specs.append(label + value)`,
where reading the value may raise. -/
def apply_spec_rule (findall : String → String → List (List String))
    (text : String) (r : SpecRule) : Except Unit (List String) :=
  format_matches r ((findall r.pattern text).take r.takeN)

/-- Run the dispatched rules in order, concatenating their fragments; an
exception raised while any rule reads a value aborts the whole body, exactly
as it aborts the sequence of for loops in the source. -/
def run_spec_rules (findall : String → String → List (List String))
    (text : String) : List SpecRule → Except Unit (List String)
  | [] => Except.ok []
  | r :: rs =>
    match apply_spec_rule findall text r with
    | Except.error e => Except.error e
    | Except.ok vs =>
      match run_spec_rules findall text rs with
      | Except.error e => Except.error e
      | Except.ok vss => Except.ok (vs ++ vss)

/-- Embeds `_extract_component_specifications(text, component_type)`:
run the dispatched rules and join the collected fragments; the catch-all
around the body turns an internal exception into None, discarding whatever
was collected, and an empty collection is likewise returned as None. -/
def extract_component_specifications
    (findall : String → String → List (List String))
    (text : String) (component_type : Option String) : Option String :=
  match run_spec_rules findall text (spec_rules_for component_type) with
  | Except.error _ => none
  | Except.ok specs =>
    if specs.isEmpty then none else some (String.intercalate ", " specs)

/-! ## Lemmas about the quantization ranker -/

/-- Every value in the quantization table is at most 7. -/
lemma quant_table_le (k : String) (r : Nat) (h : quant_rank_table.lookup k = some r) :
    r ≤ 7 := by
  simp only [quant_rank_table, List.lookup] at h
  repeat' split at h
  all_goals simp_all
  all_goals omega

/-- A successful two-character prefix test exposes the first two characters. -/
lemma chars_start_two (a b : Char) (l : List Char)
    (h : chars_start [a, b] l = true) : ∃ rest, l = a :: b :: rest := by
  match l with
  | [] => simp [chars_start] at h
  | [c] => simp [chars_start] at h
  | c :: d :: rest =>
    simp only [chars_start, Bool.and_eq_true, beq_iff_eq] at h
    exact ⟨rest, by simp [h.1, h.2.1]⟩

/-- Two-character prefixes differing in the second character are exclusive. -/
lemma chars_start_two_ne (a b b' : Char) (r : List Char) (hne : b' ≠ b) :
    chars_start [a, b'] (a :: b :: r) = false := by
  simp [chars_start, beq_iff_eq, hne]

/-- A string starting with `Q` followed by `b` does not start with `Q`
followed by a different character. -/
lemma starts_q_ne (q : String) (b b' : Char)
    (hb : str_starts_with q (String.mk ['Q', b]) = true) (hne : b' ≠ b) :
    str_starts_with q (String.mk ['Q', b']) = false := by
  obtain ⟨rest, hr⟩ := chars_start_two 'Q' b q.data hb
  unfold str_starts_with
  rw [show (String.mk ['Q', b']).data = ['Q', b'] from rfl, hr]
  exact chars_start_two_ne 'Q' b b' rest hne

/-- C4: the quantization ranker is total with range contained in [0,7]; exact
table tags receive their table value (stated both for the uppercased lookup in
general and for the twelve concrete tags); tags outside the table starting
with Q8/Q6/Q5/Q4/Q3/Q2 receive 5/4/3/2/1/0 by prefix; all other tags,
including the empty one, receive the default rank 2. -/
theorem C4_quant_rank_spec (q : String) :
    get_quant_rank q ≤ 7
    ∧ (∀ r, quant_rank_table.lookup (str_to_upper q) = some r → get_quant_rank q = r)
    ∧ (get_quant_rank "F32" = 7 ∧ get_quant_rank "F16" = 6 ∧ get_quant_rank "Q8_0" = 5
       ∧ get_quant_rank "Q6_K" = 4 ∧ get_quant_rank "Q5_K_M" = 3 ∧ get_quant_rank "Q5_K" = 3
       ∧ get_quant_rank "Q5_0" = 3 ∧ get_quant_rank "Q4_K_M" = 2 ∧ get_quant_rank "Q4_K_S" = 2
       ∧ get_quant_rank "Q4_0" = 2 ∧ get_quant_rank "Q3_K" = 1 ∧ get_quant_rank "Q2_K" = 0
       ∧ get_quant_rank "" = 2)
    ∧ (quant_rank_table.lookup (str_to_upper q) = none →
        (str_starts_with (str_to_upper q) "Q8" = true → get_quant_rank q = 5)
        ∧ (str_starts_with (str_to_upper q) "Q6" = true → get_quant_rank q = 4)
        ∧ (str_starts_with (str_to_upper q) "Q5" = true → get_quant_rank q = 3)
        ∧ (str_starts_with (str_to_upper q) "Q4" = true → get_quant_rank q = 2)
        ∧ (str_starts_with (str_to_upper q) "Q3" = true → get_quant_rank q = 1)
        ∧ (str_starts_with (str_to_upper q) "Q2" = true → get_quant_rank q = 0)
        ∧ (str_starts_with (str_to_upper q) "Q8" = false →
           str_starts_with (str_to_upper q) "Q6" = false →
           str_starts_with (str_to_upper q) "Q5" = false →
           str_starts_with (str_to_upper q) "Q4" = false →
           str_starts_with (str_to_upper q) "Q3" = false →
           str_starts_with (str_to_upper q) "Q2" = false →
           get_quant_rank q = 2)) := by
  refine ⟨?_, ?_, ?_, ?_⟩
  · cases h : quant_rank_table.lookup (str_to_upper q) with
    | some r =>
      have := quant_table_le (str_to_upper q) r h
      simp [get_quant_rank, h, this]
    | none =>
      simp only [get_quant_rank, h]
      split_ifs <;> omega
  · intro r h
    simp [get_quant_rank, h]
  · refine ⟨by decide, by decide, by decide, by decide, by decide, by decide, by decide,
       by decide, by decide, by decide, by decide, by decide, by decide⟩
  · intro h
    refine ⟨?_, ?_, ?_, ?_, ?_, ?_, ?_⟩
    · intro h8
      simp [get_quant_rank, h, h8]
    · intro h6
      have h8 := starts_q_ne (str_to_upper q) '6' '8' h6 (by decide)
      simp [get_quant_rank, h, h6, h8]
    · intro h5
      have h8 := starts_q_ne (str_to_upper q) '5' '8' h5 (by decide)
      have h6 := starts_q_ne (str_to_upper q) '5' '6' h5 (by decide)
      simp [get_quant_rank, h, h5, h8, h6]
    · intro h4
      have h8 := starts_q_ne (str_to_upper q) '4' '8' h4 (by decide)
      have h6 := starts_q_ne (str_to_upper q) '4' '6' h4 (by decide)
      have h5 := starts_q_ne (str_to_upper q) '4' '5' h4 (by decide)
      simp [get_quant_rank, h, h4, h8, h6, h5]
    · intro h3
      have h8 := starts_q_ne (str_to_upper q) '3' '8' h3 (by decide)
      have h6 := starts_q_ne (str_to_upper q) '3' '6' h3 (by decide)
      have h5 := starts_q_ne (str_to_upper q) '3' '5' h3 (by decide)
      have h4 := starts_q_ne (str_to_upper q) '3' '4' h3 (by decide)
      simp [get_quant_rank, h, h3, h8, h6, h5, h4]
    · intro h2
      have h8 := starts_q_ne (str_to_upper q) '2' '8' h2 (by decide)
      have h6 := starts_q_ne (str_to_upper q) '2' '6' h2 (by decide)
      have h5 := starts_q_ne (str_to_upper q) '2' '5' h2 (by decide)
      have h4 := starts_q_ne (str_to_upper q) '2' '4' h2 (by decide)
      have h3 := starts_q_ne (str_to_upper q) '2' '3' h2 (by decide)
      simp [get_quant_rank, h, h2, h8, h6, h5, h4, h3]
    · intro h8 h6 h5 h4 h3 h2
      simp [get_quant_rank, h, h8, h6, h5, h4, h3, h2]

/-- Witness for C4 at concrete inputs: the tag Q8_1 is outside the table and
gets its prefix rank 5; the lowercase tag q5_k hits the table after
uppercasing; the tag XX gets the default rank 2. -/
theorem C4_quant_rank_spec_witness :
    get_quant_rank "Q8_1" = 5 ∧ get_quant_rank "q5_k" = 3 ∧ get_quant_rank "XX" = 2 :=
  ⟨((C4_quant_rank_spec "Q8_1").2.2.2 (by decide)).1 (by decide),
   (C4_quant_rank_spec "q5_k").2.1 3 (by decide),
   ((((((((C4_quant_rank_spec "XX").2.2.2 (by decide)).2.2.2.2.2.2)
     (by decide)) (by decide)) (by decide)) (by decide)) (by decide)) (by decide)⟩

/-- C5: the parameter-size estimator uses the number captured by the first
digits-then-b pattern of the lowercased basename whenever one exists,
independently of the file size, and otherwise falls back to the exact size
buckets 12 / 7 / 4 / 3 with thresholds 6e9, 3e9 and 1.8e9 bytes. -/
theorem C5_detect_params_spec (path : String) (size : Nat) :
    (∀ k, find_params_b (str_to_lower (basename path)).data = some k →
       ∀ size2, detect_params_b path size2 = k)
    ∧ (find_params_b (str_to_lower (basename path)).data = none →
       detect_params_b path size =
         (if size > 6000000000 then 12
          else if size > 3000000000 then 7
          else if size > 1800000000 then 4
          else 3)) := by
  constructor
  · intro k h size2
    simp [detect_params_b, h]
  · intro h
    simp [detect_params_b, h]

/-- Witness for C5: the spec example filename yields 13 at two very different
sizes, and a patternless filename falls into the 7B size bucket. -/
theorem C5_detect_params_spec_witness :
    detect_params_b "modelname-13b-q4.gguf" 999 = 13
    ∧ detect_params_b "modelname-13b-q4.gguf" 7000000001 = 13
    ∧ detect_params_b "model.gguf" 4000000000 = 7 := by
  refine ⟨(C5_detect_params_spec "modelname-13b-q4.gguf" 0).1 13 (by decide) 999,
          (C5_detect_params_spec "modelname-13b-q4.gguf" 0).1 13 (by decide) 7000000001,
          ?_⟩
  rw [(C5_detect_params_spec "model.gguf" 4000000000).2 (by decide)]
  decide

/-! ## Lemmas about the descending candidate sort -/

/-- Inserting never yields an empty list. -/
lemma insert_desc_ne_nil (c : Cand) (l : List Cand) : insert_desc c l ≠ [] := by
  cases l with
  | nil => simp [insert_desc]
  | cons d ds =>
    simp only [insert_desc]
    split <;> simp

/-- The sorted list is empty exactly when the input was. -/
lemma sort_desc_nil_iff (l : List Cand) : sort_candidates_desc l = [] ↔ l = [] := by
  cases l with
  | nil => simp [sort_candidates_desc]
  | cons c cs =>
    simp only [sort_candidates_desc]
    exact ⟨fun h => absurd h (insert_desc_ne_nil c _), fun h => by simp at h⟩

/-- Membership across one insertion. -/
lemma mem_insert_desc (x c : Cand) (l : List Cand) :
    x ∈ insert_desc c l ↔ x = c ∨ x ∈ l := by
  induction l with
  | nil => simp [insert_desc]
  | cons d ds ih =>
    simp only [insert_desc]
    split
    · simp [List.mem_cons]
    · simp only [List.mem_cons, ih]
      tauto

/-- Sorting preserves membership. -/
lemma mem_sort_desc (x : Cand) (l : List Cand) :
    x ∈ sort_candidates_desc l ↔ x ∈ l := by
  induction l with
  | nil => simp [sort_candidates_desc]
  | cons c cs ih => simp [sort_candidates_desc, mem_insert_desc, ih]

/-- The key order is total. -/
lemma key_ge_total (a b : Nat × Int × Nat) : key_ge a b = true ∨ key_ge b a = true := by
  obtain ⟨a1, a2, a3⟩ := a
  obtain ⟨b1, b2, b3⟩ := b
  simp only [key_ge, Bool.or_eq_true, Bool.and_eq_true, decide_eq_true_eq]
  omega

/-- Totality in the contrapositive form used by the sort. -/
lemma key_ge_of_not (a b : Nat × Int × Nat) (h : key_ge a b = false) :
    key_ge b a = true := by
  rcases key_ge_total a b with h1 | h1
  · rw [h] at h1
    exact absurd h1 (by simp)
  · exact h1

/-- The key order is transitive. -/
lemma key_ge_trans (a b c : Nat × Int × Nat) (hab : key_ge a b = true)
    (hbc : key_ge b c = true) : key_ge a c = true := by
  obtain ⟨a1, a2, a3⟩ := a
  obtain ⟨b1, b2, b3⟩ := b
  obtain ⟨c1, c2, c3⟩ := c
  simp only [key_ge, Bool.or_eq_true, Bool.and_eq_true, decide_eq_true_eq] at *
  omega

/-- A larger key has a first component at least as large. -/
lemma key_ge_fst (a b : Nat × Int × Nat) (h : key_ge a b = true) : b.1 ≤ a.1 := by
  obtain ⟨a1, a2, a3⟩ := a
  obtain ⟨b1, b2, b3⟩ := b
  simp only [key_ge, Bool.or_eq_true, Bool.and_eq_true, decide_eq_true_eq] at h
  omega

/-- The key order is reflexive. -/
lemma key_ge_refl (a : Nat × Int × Nat) : key_ge a a = true := by
  obtain ⟨a1, a2, a3⟩ := a
  simp [key_ge]

/-- The head of the descending sort has a maximal key. -/
lemma sort_desc_head_ge (l : List Cand) (c : Cand) (rest : List Cand)
    (h : sort_candidates_desc l = c :: rest) (x : Cand) (hx : x ∈ l) :
    key_ge (cand_key c) (cand_key x) = true := by
  induction l generalizing c rest with
  | nil => simp at hx
  | cons a as ih =>
    simp only [sort_candidates_desc] at h
    cases hs : sort_candidates_desc as with
    | nil =>
      have has : as = [] := (sort_desc_nil_iff as).mp hs
      rw [hs] at h
      simp only [insert_desc, List.cons.injEq] at h
      rcases List.mem_cons.mp hx with hxa | hxas
      · rw [hxa, ← h.1]
        exact key_ge_refl _
      · rw [has] at hxas
        simp at hxas
    | cons b bs =>
      rw [hs] at h
      simp only [insert_desc] at h
      split at h
      · next hk =>
        obtain ⟨h1, _⟩ := List.cons.injEq .. |>.mp h
        rcases List.mem_cons.mp hx with hxa | hxas
        · rw [hxa, ← h1]
          exact key_ge_refl _
        · have hbx := ih b bs hs hxas
          rw [← h1]
          exact key_ge_trans _ _ _ hk hbx
      · next hk =>
        obtain ⟨h1, _⟩ := List.cons.injEq .. |>.mp h
        rcases List.mem_cons.mp hx with hxa | hxas
        · rw [hxa, ← h1]
          exact key_ge_of_not _ _ (by simp [hk])
        · rw [← h1]
          exact ih b bs hs hxas

/-! ## Lemmas about the minimum fold and pick_best -/

/-- The minimum fold is bounded by its initial value. -/
lemma foldl_min_le_init (l : List Nat) (a : Nat) : l.foldl Nat.min a ≤ a := by
  induction l generalizing a with
  | nil => simp
  | cons x xs ih =>
    simp only [List.foldl_cons]
    exact (ih (Nat.min a x)).trans (Nat.min_le_left a x)

/-- The minimum fold is bounded by every list element. -/
lemma foldl_min_le_mem (l : List Nat) (a x : Nat) (hx : x ∈ l) :
    l.foldl Nat.min a ≤ x := by
  induction l generalizing a with
  | nil => simp at hx
  | cons y ys ih =>
    simp only [List.foldl_cons]
    rcases List.mem_cons.mp hx with hxy | hxys
    · subst hxy
      exact (foldl_min_le_init ys (Nat.min a x)).trans (Nat.min_le_right a x)
    · exact ih (Nat.min a y) hxys

/-- The minimum fold is attained at the initial value or in the list. -/
lemma foldl_min_mem (l : List Nat) (a : Nat) :
    l.foldl Nat.min a = a ∨ l.foldl Nat.min a ∈ l := by
  induction l generalizing a with
  | nil => simp
  | cons x xs ih =>
    simp only [List.foldl_cons]
    rcases ih (Nat.min a x) with h | h
    · rcases Nat.le_total a x with hax | hax
      · left
        rw [h]
        exact Nat.min_eq_left hax
      · right
        rw [h]
        simp [Nat.min_eq_right hax]
    · right
      simp [h]

/-- The function min_params_b bounds the parameter estimate of every catalog entry. -/
lemma min_params_b_le (models : List Model) (x : Model) (hx : x ∈ models) :
    min_params_b models ≤ model_params_b x := by
  cases models with
  | nil => simp at hx
  | cons m0 rest =>
    have hfold : rest.foldl (fun acc y => Nat.min acc (model_params_b y)) (model_params_b m0)
        = (rest.map model_params_b).foldl Nat.min (model_params_b m0) := by
      rw [List.foldl_map]
    rcases List.mem_cons.mp hx with hxm | hxr
    · rw [hxm]
      simp only [min_params_b]
      rw [hfold]
      exact foldl_min_le_init _ _
    · simp only [min_params_b]
      rw [hfold]
      exact foldl_min_le_mem _ _ _ (List.mem_map_of_mem model_params_b hxr)

/-- The function min_params_b is attained on a nonempty catalog. -/
lemma min_params_b_attained (models : List Model) (hne : models ≠ []) :
    ∃ x ∈ models, model_params_b x = min_params_b models := by
  cases models with
  | nil => exact absurd rfl hne
  | cons m0 rest =>
    have hfold : min_params_b (m0 :: rest)
        = (rest.map model_params_b).foldl Nat.min (model_params_b m0) := by
      simp only [min_params_b]
      rw [List.foldl_map]
    rcases foldl_min_mem (rest.map model_params_b) (model_params_b m0) with h | h
    · exact ⟨m0, List.mem_cons_self m0 rest, by rw [hfold, h]⟩
    · obtain ⟨y, hy, hyv⟩ := List.mem_map.mp h
      exact ⟨y, List.mem_cons_of_mem m0 hy, by rw [hfold, hyv]⟩

/-- On a nonempty model list, `pick_best` of its candidates succeeds. -/
lemma pick_best_ok_of_ne_nil (ms fallback : List Model) (tr : Nat) (hne : ms ≠ []) :
    ∃ m, pick_best (mk_candidates ms tr) fallback = Except.ok m := by
  cases hs : sort_candidates_desc (mk_candidates ms tr) with
  | nil =>
    have h0 : mk_candidates ms tr = [] := (sort_desc_nil_iff _).mp hs
    obtain ⟨w, ws, rfl⟩ := List.exists_cons_of_ne_nil hne
    simp [mk_candidates] at h0
  | cons best brest =>
    refine ⟨best.2.2.2, ?_⟩
    obtain ⟨w, ws, rfl⟩ := List.exists_cons_of_ne_nil hne
    simp only [mk_candidates, List.map] at hs ⊢
    simp only [pick_best, hs]

/-- A successful `pick_best` over the candidates of `ms` returns a member of
`ms` whose parameter estimate is maximal in `ms`. -/
lemma pick_best_ok_mem_max (ms fallback : List Model) (tr : Nat) (m : Model)
    (hne : ms ≠ []) (h : pick_best (mk_candidates ms tr) fallback = Except.ok m) :
    m ∈ ms ∧ ∀ x ∈ ms, model_params_b x ≤ model_params_b m := by
  obtain ⟨w, ws, rfl⟩ := List.exists_cons_of_ne_nil hne
  cases hs : sort_candidates_desc (mk_candidates (w :: ws) tr) with
  | nil =>
    have h0 : mk_candidates (w :: ws) tr = [] := (sort_desc_nil_iff _).mp hs
    simp [mk_candidates] at h0
  | cons best brest =>
    have hbm : m = best.2.2.2 := by
      simp only [mk_candidates, List.map] at hs h
      simp only [pick_best, hs] at h
      exact (Except.ok.injEq .. |>.mp h).symm
    have hbest_mem : best ∈ mk_candidates (w :: ws) tr := by
      have : best ∈ sort_candidates_desc (mk_candidates (w :: ws) tr) := by
        rw [hs]
        exact List.mem_cons_self best brest
      exact (mem_sort_desc best _).mp this
    obtain ⟨y, hy, hyc⟩ := List.mem_map.mp hbest_mem
    constructor
    · rw [hbm, ← hyc]
      exact hy
    · intro x hx
      have hxc : (model_params_b x,
          -((((get_quant_rank x.quant : Int) - (tr : Int)).natAbs : Int)),
          x.file_size, x) ∈ mk_candidates (w :: ws) tr :=
        List.mem_map_of_mem _ hx
      have hge := sort_desc_head_ge _ best brest hs _ hxc
      have hfst := key_ge_fst _ _ hge
      have hbest1 : best.1 = model_params_b y := by rw [← hyc]
      have hm_eq : model_params_b m = model_params_b y := by rw [hbm, ← hyc]
      simp only [cand_key] at hfst
      rw [hm_eq, ← hbest1]
      exact hfst

/-- Characterization of a successful heuristic selection without a preferred
name: the result lies in the VRAM size filter and maximizes the parameter
estimate there, or the filter was empty and the result sits at the global
parameter minimum. -/
lemma select_no_pref_ok (models : List Model) (v : Nat) (m : Model)
    (h : select_best_model models "" v = Except.ok m) :
    (models.filter (fun x => decide (model_params_b x ≤ max_params_for v)) ≠ []
      ∧ m ∈ models.filter (fun x => decide (model_params_b x ≤ max_params_for v))
      ∧ ∀ x ∈ models.filter (fun x => decide (model_params_b x ≤ max_params_for v)),
          model_params_b x ≤ model_params_b m)
    ∨ (models.filter (fun x => decide (model_params_b x ≤ max_params_for v)) = []
      ∧ models ≠ []
      ∧ model_params_b m = min_params_b models
      ∧ ∀ x ∈ models, min_params_b models ≤ model_params_b x) := by
  simp only [select_best_model, ne_eq, not_true_eq_false, if_false] at h
  cases hf : models.filter (fun x => decide (model_params_b x ≤ max_params_for v)) with
  | cons w ws =>
    left
    rw [hf] at h
    have := pick_best_ok_mem_max (w :: ws) models (target_rank_for v) m (by simp) h
    exact ⟨by simp, this.1, this.2⟩
  | nil =>
    right
    rw [hf] at h
    cases models with
    | nil => simp at h
    | cons m0 rest =>
      have hne : (m0 :: rest : List Model) ≠ [] := by simp
      obtain ⟨y, hy, hyv⟩ := min_params_b_attained (m0 :: rest) hne
      have hymem : y ∈ (m0 :: rest).filter
          (fun x => decide (model_params_b x = min_params_b (m0 :: rest))) :=
        List.mem_filter.mpr ⟨hy, by simp [hyv]⟩
      have hfne : (m0 :: rest).filter
          (fun x => decide (model_params_b x = min_params_b (m0 :: rest))) ≠ [] := by
        intro h0
        rw [h0] at hymem
        simp at hymem
      have hres := pick_best_ok_mem_max _ (m0 :: rest) (target_rank_for v) m hfne h
      have hm_min : model_params_b m = min_params_b (m0 :: rest) := by
        have := List.mem_filter.mp hres.1
        simpa using this.2
      exact ⟨rfl, hne, hm_min, fun x hx => min_params_b_le (m0 :: rest) x hx⟩

/-- C1: on an empty catalog both the selector fails with NoCandidatesError,
and that is the only way it can fail: every nonempty catalog, under any VRAM
value and any preferred-name override, yields a selected candidate. -/
theorem C1_select_fails_iff_empty (models : List Model) (preferred : String) (vram : Nat) :
    (select_best_model models preferred vram = Except.error SelectError.NoCandidatesError
      ↔ models = [])
    ∧ (models ≠ [] → ∃ m, select_best_model models preferred vram = Except.ok m) := by
  have hok : models ≠ [] → ∃ m, select_best_model models preferred vram = Except.ok m := by
    intro hne
    cases hfind : (if preferred ≠ "" then
        models.find? (fun m =>
          str_starts_with (str_to_lower (basename m.gguf_path)) (str_to_lower preferred))
      else none) with
    | some m =>
      exact ⟨m, by simp only [select_best_model, hfind]⟩
    | none =>
      cases hf : models.filter (fun x => decide (model_params_b x ≤ max_params_for vram)) with
      | cons w ws =>
        obtain ⟨m, hm⟩ := pick_best_ok_of_ne_nil (w :: ws) models (target_rank_for vram)
          (by simp)
        exact ⟨m, by simp only [select_best_model, hfind, hf]; exact hm⟩
      | nil =>
        obtain ⟨m0, rest, rfl⟩ := List.exists_cons_of_ne_nil hne
        obtain ⟨y, hy, hyv⟩ := min_params_b_attained (m0 :: rest) hne
        have hymem : y ∈ (m0 :: rest).filter
            (fun x => decide (model_params_b x = min_params_b (m0 :: rest))) :=
          List.mem_filter.mpr ⟨hy, by simp [hyv]⟩
        have hfne : (m0 :: rest).filter
            (fun x => decide (model_params_b x = min_params_b (m0 :: rest))) ≠ [] := by
          intro h0
          rw [h0] at hymem
          simp at hymem
        obtain ⟨m, hm⟩ := pick_best_ok_of_ne_nil _ (m0 :: rest) (target_rank_for vram) hfne
        exact ⟨m, by simp only [select_best_model, hfind, hf]; exact hm⟩
  constructor
  · constructor
    · intro herr
      by_contra hne
      obtain ⟨m, hm⟩ := hok hne
      rw [hm] at herr
      exact absurd herr (by simp)
    · intro he
      subst he
      rcases eq_or_ne preferred "" with hp | hp <;>
        simp [select_best_model, hp, List.find?, List.filter]
  · exact hok

/-- Witness for C1: the empty catalog errs, and a one-entry catalog under a
non-matching preferred name still selects that entry. -/
theorem C1_select_fails_iff_empty_witness :
    select_best_model [] "x" 0 = Except.error SelectError.NoCandidatesError
    ∧ ∃ m, select_best_model [⟨"models/tiny-3b.gguf", 1000, "Q4_0"⟩] "x" 0 = Except.ok m :=
  ⟨(C1_select_fails_iff_empty [] "x" 0).1.mpr rfl,
   (C1_select_fails_iff_empty [⟨"models/tiny-3b.gguf", 1000, "Q4_0"⟩] "x" 0).2 (by simp)⟩

/-- The VRAM parameter cap is monotone in VRAM. -/
lemma max_params_mono (v1 v2 : Nat) (h : v1 ≤ v2) :
    max_params_for v1 ≤ max_params_for v2 := by
  unfold max_params_for
  split_ifs <;> omega

/-- C2: with a fixed catalog and no preferred-name override, growing the VRAM
budget never decreases the estimated parameter size of the selected model. -/
theorem C2_select_monotone_in_vram (models : List Model) (v1 v2 : Nat) (hv : v1 ≤ v2)
    (m1 m2 : Model) (h1 : select_best_model models "" v1 = Except.ok m1)
    (h2 : select_best_model models "" v2 = Except.ok m2) :
    model_params_b m1 ≤ model_params_b m2 := by
  have s1 := select_no_pref_ok models v1 m1 h1
  have s2 := select_no_pref_ok models v2 m2 h2
  have hmono := max_params_mono v1 v2 hv
  rcases s1 with ⟨_, hmem1, _⟩ | ⟨_, _, hmin1, hminle1⟩
  · have hm1_models : m1 ∈ models := (List.mem_filter.mp hmem1).1
    have hm1_le : model_params_b m1 ≤ max_params_for v1 := by
      have := (List.mem_filter.mp hmem1).2
      simpa using this
    have hm1F2 : m1 ∈ models.filter (fun x => decide (model_params_b x ≤ max_params_for v2)) :=
      List.mem_filter.mpr ⟨hm1_models, by simp only [decide_eq_true_eq]; omega⟩
    rcases s2 with ⟨_, _, hmax2⟩ | ⟨hemp2, _, _, _⟩
    · exact hmax2 m1 hm1F2
    · rw [hemp2] at hm1F2
      simp at hm1F2
  · rcases s2 with ⟨_, hmem2, _⟩ | ⟨_, _, hmin2, _⟩
    · have hm2_models : m2 ∈ models := (List.mem_filter.mp hmem2).1
      rw [hmin1]
      exact hminle1 m2 hm2_models
    · rw [hmin1, hmin2]

/-- Witness for C2 at a concrete catalog: a 3B and a 7B model, VRAM 4096
against VRAM 8000; the selection parameter estimate grows from 3 to 7. -/
theorem C2_select_monotone_in_vram_witness :
    select_best_model
        [⟨"models/a-3b.gguf", 1000, "Q4_0"⟩, ⟨"models/a-7b.gguf", 2000, "Q4_0"⟩] "" 4096
      = Except.ok ⟨"models/a-3b.gguf", 1000, "Q4_0"⟩
    ∧ select_best_model
        [⟨"models/a-3b.gguf", 1000, "Q4_0"⟩, ⟨"models/a-7b.gguf", 2000, "Q4_0"⟩] "" 8000
      = Except.ok ⟨"models/a-7b.gguf", 2000, "Q4_0"⟩
    ∧ model_params_b (⟨"models/a-3b.gguf", 1000, "Q4_0"⟩ : Model)
      ≤ model_params_b (⟨"models/a-7b.gguf", 2000, "Q4_0"⟩ : Model) := by
  refine ⟨by rfl, by rfl, ?_⟩
  exact C2_select_monotone_in_vram
    [⟨"models/a-3b.gguf", 1000, "Q4_0"⟩, ⟨"models/a-7b.gguf", 2000, "Q4_0"⟩]
    4096 8000 (by omega) _ _ (by rfl) (by rfl)

/-- The 4B / Q4_K_M / 2.5e9-byte candidate of the C3 scenario. -/
def c3_model_4b : Model := ⟨"models/model-4b.Q4_K_M.gguf", 2500000000, "Q4_K_M"⟩

/-- The 7B / Q5_K_M / 4.5e9-byte candidate of the C3 scenario. -/
def c3_model_7b : Model := ⟨"models/model-7b.Q5_K_M.gguf", 4500000000, "Q5_K_M"⟩

/-- The 13B / Q2_K / 7e9-byte candidate of the C3 scenario. -/
def c3_model_13b : Model := ⟨"models/model-13b.Q2_K.gguf", 7000000000, "Q2_K"⟩

/-- C3: on the three-candidate catalog at 10000 MB VRAM with no preferred
name, the selector derives target quantization rank 2 and parameter cap 7,
the parameter filter drops the 13B candidate, the remaining score tuples are
(4, 0, 2.5e9) and (7, -1, 4.5e9), the 7B tuple wins because the parameter
component is compared first, and the selection is the 7B/Q5_K_M candidate. -/
theorem C3_scenario_selects_7b :
    target_rank_for 10000 = 2
    ∧ max_params_for 10000 = 7
    ∧ model_params_b c3_model_13b = 13
    ∧ ([c3_model_4b, c3_model_7b, c3_model_13b].filter
        (fun m => decide (model_params_b m ≤ max_params_for 10000))
        = [c3_model_4b, c3_model_7b])
    ∧ mk_candidates [c3_model_4b, c3_model_7b] (target_rank_for 10000)
        = [(4, 0, 2500000000, c3_model_4b), (7, -1, 4500000000, c3_model_7b)]
    ∧ key_ge (cand_key (7, -1, 4500000000, c3_model_7b))
        (cand_key (4, 0, 2500000000, c3_model_4b)) = true
    ∧ select_best_model [c3_model_4b, c3_model_7b, c3_model_13b] "" 10000
        = Except.ok c3_model_7b := by
  refine ⟨by decide, by decide, by decide, by decide, by decide, by decide, by rfl⟩

/-- C9: on any catalog and any VRAM value, the helper script selector and the
backend selector without a preferred-name override make the same decision. -/
theorem C9_script_backend_equivalent (models : List Model) (vram : Nat) :
    select_model models vram = select_best_model models "" vram := by
  simp [select_model, select_best_model]

/-! ## Lemmas about the initialization cascade -/

/-- The alternatives loop fails through exactly the not-yet-succeeding prefix
of the (primary-skipping, size-ordered) attempt list and stops at the first
attempt the runtime accepts. -/
lemma alt_loop_spec (ok : InitAttempt → Bool) (mp : String) (ctx thr : Nat) :
    ∀ (l : List Model) (nm : String),
      (alt_loop ok mp ctx thr nm l).2.2
        = ((l.filter (fun m => !(m.gguf_path == mp))).map
            (fun m => (⟨m.gguf_path, ctx, thr, 0⟩ : InitAttempt))).takeWhile
            (fun a => !(ok a))
      ∧ (alt_loop ok mp ctx thr nm l).1
        = ((l.filter (fun m => !(m.gguf_path == mp))).map
            (fun m => (⟨m.gguf_path, ctx, thr, 0⟩ : InitAttempt))).find? ok := by
  intro l
  induction l with
  | nil =>
    intro nm
    simp [alt_loop]
  | cons alt rest ih =>
    intro nm
    by_cases hskip : alt.gguf_path == mp
    · simpa [alt_loop, hskip, List.filter_cons] using ih nm
    · by_cases hok2 : ok ⟨alt.gguf_path, ctx, thr, 0⟩
      · simp [alt_loop, hskip, hok2, List.filter_cons, List.find?]
      · simpa [alt_loop, hskip, hok2, List.filter_cons, List.find?]
          using ih (basename alt.gguf_path)

/-- When the alternatives loop succeeds, the name it leaves behind is the
basename of the model path of the successful attempt. -/
lemma alt_loop_name (ok : InitAttempt → Bool) (mp : String) (ctx thr : Nat) :
    ∀ (l : List Model) (nm : String) (a : InitAttempt),
      (alt_loop ok mp ctx thr nm l).1 = some a →
      (alt_loop ok mp ctx thr nm l).2.1 = basename a.model_path := by
  intro l
  induction l with
  | nil =>
    intro nm a h
    simp [alt_loop] at h
  | cons alt rest ih =>
    intro nm a h
    by_cases hskip : alt.gguf_path == mp
    · rw [alt_loop] at h ⊢
      simp only [hskip, if_true] at h ⊢
      exact ih nm a h
    · by_cases hok2 : ok ⟨alt.gguf_path, ctx, thr, 0⟩
      · rw [alt_loop] at h ⊢
        simp only [hskip, hok2] at h ⊢
        simp only [Bool.false_eq_true, if_false, if_true] at h ⊢
        have : a = ⟨alt.gguf_path, ctx, thr, 0⟩ := by
          cases h
          rfl
        simp [this]
      · rw [alt_loop] at h ⊢
        simp only [hskip, hok2, Bool.false_eq_true, if_false] at h ⊢
        exact ih (basename alt.gguf_path) a h

/-- C6: the cascade attempts exactly the fixed configuration sequence
(primary with configured GPU layers, CPU-only, reduced context CPU-only, then
size-ordered alternatives skipping the primary): the failed attempts are the
longest rejected prefix of that sequence and the loaded configuration is its
first accepted element, so each stage runs at most once, the cascade advances
only on failures and stops at the first success; in the scenario where the
first two attempts throw and the reduced-context attempt succeeds, the final
state is ready with the reduced context after exactly two failed attempts. -/
theorem C6_cascade_fixed_order (ok : InitAttempt → Bool) (models : List Model)
    (model_path : String) (n_ctx n_threads : Nat) (gpu_layers : Int) :
    ((init_llm_cascade ok models model_path n_ctx n_threads gpu_layers).2
      = (cascade_attempts models model_path n_ctx n_threads gpu_layers).takeWhile
          (fun a => !(ok a)))
    ∧ ((init_llm_cascade ok models model_path n_ctx n_threads gpu_layers).1.llm
      = (cascade_attempts models model_path n_ctx n_threads gpu_layers).find? ok)
    ∧ (ok ⟨model_path, n_ctx, n_threads, gpu_layers⟩ = false →
       ok ⟨model_path, n_ctx, n_threads, 0⟩ = false →
       ok ⟨model_path, max (min n_ctx 4096) 2048, n_threads, 0⟩ = true →
         (init_llm_cascade ok models model_path n_ctx n_threads gpu_layers).1.llm
           = some ⟨model_path, max (min n_ctx 4096) 2048, n_threads, 0⟩
         ∧ (init_llm_cascade ok models model_path n_ctx n_threads gpu_layers).2.length
           = 2) := by
  have key : ((init_llm_cascade ok models model_path n_ctx n_threads gpu_layers).2
      = (cascade_attempts models model_path n_ctx n_threads gpu_layers).takeWhile
          (fun a => !(ok a)))
      ∧ ((init_llm_cascade ok models model_path n_ctx n_threads gpu_layers).1.llm
      = (cascade_attempts models model_path n_ctx n_threads gpu_layers).find? ok) := by
    obtain ⟨ht, hf⟩ := alt_loop_spec ok model_path (max (min n_ctx 4096) 2048) n_threads
      (sort_models_by_size models) (basename model_path)
    by_cases h1 : ok ⟨model_path, n_ctx, n_threads, gpu_layers⟩
    · simp [init_llm_cascade, cascade_attempts, h1, List.find?]
    · by_cases h2 : ok ⟨model_path, n_ctx, n_threads, 0⟩
      · simp [init_llm_cascade, cascade_attempts, h1, h2, List.find?]
      · by_cases h3 : ok ⟨model_path, max (min n_ctx 4096) 2048, n_threads, 0⟩
        · simp [init_llm_cascade, cascade_attempts, h1, h2, h3, List.find?]
        · simp [init_llm_cascade, cascade_attempts, h1, h2, h3, List.find?, ht, hf]
  refine ⟨key.1, key.2, fun hf1 hf2 hs3 => ⟨?_, ?_⟩⟩
  · rw [key.2]
    simp [cascade_attempts, List.find?, hf1, hf2, hs3]
  · rw [key.1]
    simp [cascade_attempts, hf1, hf2, hs3]

/-- Witness for C6: with a runtime that accepts only context 4096, starting
from context 8192, the primary and CPU-only attempts fail and the
reduced-context attempt is loaded after exactly two failures. -/
theorem C6_cascade_fixed_order_witness :
    (init_llm_cascade (fun a => a.n_ctx == 4096) [] "models/m-7b.gguf" 8192 4 (-1)).1.llm
      = some ⟨"models/m-7b.gguf", 4096, 4, 0⟩
    ∧ (init_llm_cascade (fun a => a.n_ctx == 4096) [] "models/m-7b.gguf" 8192 4 (-1)).2.length
      = 2 :=
  (C6_cascade_fixed_order (fun a => a.n_ctx == 4096) [] "models/m-7b.gguf" 8192 4
    (-1)).2.2 (by decide) (by decide) (by decide)

/-- C10: whenever the cascade ends with a live model handle, the recorded
model name is the basename of the path that was actually loaded, including
when an alternative candidate was loaded instead of the primary. -/
theorem C10_ready_model_name (ok : InitAttempt → Bool) (models : List Model)
    (model_path : String) (n_ctx n_threads : Nat) (gpu_layers : Int) (a : InitAttempt)
    (h : (init_llm_cascade ok models model_path n_ctx n_threads gpu_layers).1.llm
      = some a) :
    (init_llm_cascade ok models model_path n_ctx n_threads gpu_layers).1.model_name
      = basename a.model_path := by
  by_cases h1 : ok ⟨model_path, n_ctx, n_threads, gpu_layers⟩
  · simp only [init_llm_cascade, h1, if_true] at h ⊢
    cases h
    rfl
  · by_cases h2 : ok ⟨model_path, n_ctx, n_threads, 0⟩
    · simp only [init_llm_cascade, h1, h2, Bool.false_eq_true, if_false, if_true] at h ⊢
      cases h
      rfl
    · by_cases h3 : ok ⟨model_path, max (min n_ctx 4096) 2048, n_threads, 0⟩
      · simp only [init_llm_cascade, h1, h2, h3, Bool.false_eq_true, if_false, if_true]
          at h ⊢
        cases h
        rfl
      · simp only [init_llm_cascade, h1, h2, h3, Bool.false_eq_true, if_false] at h ⊢
        exact alt_loop_name ok model_path (max (min n_ctx 4096) 2048) n_threads
          (sort_models_by_size models) (basename model_path) a h

/-- Witness for C10: a runtime that only accepts CPU-only loads of the
alternative model; the cascade ends ready on the alternative and the recorded
name is the basename of that alternative. -/
theorem C10_ready_model_name_witness :
    (init_llm_cascade (fun a => a.model_path == "models/alt-3b.gguf")
        [⟨"models/alt-3b.gguf", 1000, "Q4_0"⟩, ⟨"models/prim-7b.gguf", 2000, "Q4_0"⟩]
        "models/prim-7b.gguf" 8192 4 (-1)).1.model_name
      = basename (⟨"models/alt-3b.gguf", 4096, 4, 0⟩ : InitAttempt).model_path :=
  C10_ready_model_name (fun a => a.model_path == "models/alt-3b.gguf")
    [⟨"models/alt-3b.gguf", 1000, "Q4_0"⟩, ⟨"models/prim-7b.gguf", 2000, "Q4_0"⟩]
    "models/prim-7b.gguf" 8192 4 (-1) ⟨"models/alt-3b.gguf", 4096, 4, 0⟩ (by rfl)

/-! ## Lemmas about the classifier maximum -/

/-- The running maximum of the Python max is empty-safe. -/
lemma py_max_key_eq_none_iff (l : List (String × Nat)) :
    py_max_key l = none ↔ l = [] := by
  cases l <;> simp [py_max_key]

/-- Specification of the running maximum: the result dominates the seed and
every element, and it is either the seed itself or sits at a position of the
list strictly exceeding the seed and everything before that position. -/
lemma py_max_go_spec (t : List (String × Nat)) : ∀ (b : String × Nat),
    (∀ x ∈ t, x.2 ≤ (py_max_go b t).2)
    ∧ b.2 ≤ (py_max_go b t).2
    ∧ (py_max_go b t = b
       ∨ ∃ p q, t = p ++ py_max_go b t :: q ∧ b.2 < (py_max_go b t).2
           ∧ ∀ x ∈ p, x.2 < (py_max_go b t).2) := by
  induction t with
  | nil =>
    intro b
    simp [py_max_go]
  | cons x xs ih =>
    intro b
    by_cases hbx : b.2 < x.2
    · have hgo : py_max_go b (x :: xs) = py_max_go x xs := by
        simp [py_max_go, hbx]
      obtain ⟨hall, hxle, hdec⟩ := ih x
      rw [hgo]
      refine ⟨?_, ?_, ?_⟩
      · intro y hy
        rcases List.mem_cons.mp hy with hyx | hyxs
        · rw [hyx]
          exact hxle
        · exact hall y hyxs
      · omega
      · right
        rcases hdec with hcx | ⟨p, q, hpq, hlt, hstrict⟩
        · exact ⟨[], xs, by rw [hcx]; rfl, by omega, by simp⟩
        · refine ⟨x :: p, q, by rw [List.cons_append, ← hpq], by omega, ?_⟩
          intro y hy
          rcases List.mem_cons.mp hy with hyx | hyp
          · rw [hyx]
            omega
          · exact hstrict y hyp
    · have hgo : py_max_go b (x :: xs) = py_max_go b xs := by
        simp [py_max_go, hbx]
      obtain ⟨hall, hble, hdec⟩ := ih b
      rw [hgo]
      refine ⟨?_, hble, ?_⟩
      · intro y hy
        rcases List.mem_cons.mp hy with hyx | hyxs
        · rw [hyx]
          omega
        · exact hall y hyxs
      · rcases hdec with hcb | ⟨p, q, hpq, hlt, hstrict⟩
        · exact Or.inl hcb
        · refine Or.inr ⟨x :: p, q, by rw [List.cons_append, ← hpq], hlt, ?_⟩
          intro y hy
          rcases List.mem_cons.mp hy with hyx | hyp
          · rw [hyx]
            omega
          · exact hstrict y hyp

/-- Decomposition of a filterMap around one output element. -/
lemma filterMap_decomp {α β : Type} (f : α → Option β) :
    ∀ (L : List α) (P : List β) (c : β) (Q : List β),
      L.filterMap f = P ++ c :: Q →
      ∃ L1 x L2, L = L1 ++ x :: L2 ∧ f x = some c
        ∧ L1.filterMap f = P ∧ L2.filterMap f = Q := by
  intro L
  induction L with
  | nil =>
    intro P c Q h
    simp at h
  | cons a as ih =>
    intro P c Q h
    cases hfa : f a with
    | none =>
      rw [List.filterMap_cons_none hfa] at h
      obtain ⟨L1, x, L2, hL, hx, hP, hQ⟩ := ih P c Q h
      exact ⟨a :: L1, x, L2, by rw [List.cons_append, hL], hx,
        by rw [List.filterMap_cons_none hfa, hP], hQ⟩
    | some b =>
      rw [List.filterMap_cons_some hfa] at h
      cases P with
      | nil =>
        simp only [List.nil_append, List.cons.injEq] at h
        exact ⟨[], a, as, rfl, by rw [hfa, h.1], rfl, h.2⟩
      | cons p ps =>
        simp only [List.cons_append, List.cons.injEq] at h
        obtain ⟨L1, x, L2, hL, hx, hP, hQ⟩ := ih ps c Q h.2
        exact ⟨a :: L1, x, L2, by rw [List.cons_append, hL], hx,
          by rw [List.filterMap_cons_some hfa, hP, h.1], hQ⟩

/-- C7: the classifier scores each family by the number of its patterns that
match at least once (at most 1 per pattern, so the score is bounded by the
pattern count); a returned family is the first entry of the fixed enumeration
achieving the maximal score, with strictly larger score than every earlier
family and at least the score of every later one; and the classifier returns
nothing, which the spec reads as unknown with confidence 0, exactly when all
family scores are 0. -/
theorem C7_classifier_spec (search : String → String → Bool)
    (text component_name : String) :
    (detect_component_type search text component_name = none
      ↔ ∀ fp ∈ type_patterns,
          type_score search (search_text component_name text) fp.2 = 0)
    ∧ (∀ fam, detect_component_type search text component_name = some fam →
        ∃ pre pats post,
          type_patterns = pre ++ (fam, pats) :: post
          ∧ 0 < type_score search (search_text component_name text) pats
          ∧ (∀ fp ∈ pre, type_score search (search_text component_name text) fp.2
              < type_score search (search_text component_name text) pats)
          ∧ (∀ fp ∈ post, type_score search (search_text component_name text) fp.2
              ≤ type_score search (search_text component_name text) pats))
    ∧ (∀ fp ∈ type_patterns,
        type_score search (search_text component_name text) fp.2 ≤ fp.2.length) := by
  refine ⟨?_, ?_, ?_⟩
  · rw [detect_component_type, Option.map_eq_none', py_max_key_eq_none_iff, type_scores,
      List.filterMap_eq_nil_iff]
    constructor
    · intro h fp hfp
      have := h fp hfp
      by_cases hs : 0 < type_score search (search_text component_name text) fp.2
      · simp only [hs, if_true] at this
        exact absurd this (by simp)
      · omega
    · intro h fp hfp
      simp only [h fp hfp, Nat.lt_irrefl, if_false]
  · intro fam hfam
    cases hk : py_max_key (type_scores search (search_text component_name text)) with
    | none =>
      rw [detect_component_type, hk] at hfam
      simp at hfam
    | some c =>
      rw [detect_component_type, hk] at hfam
      simp only [Option.map_some', Option.some.injEq] at hfam
      cases hts : type_scores search (search_text component_name text) with
      | nil =>
        rw [hts] at hk
        simp [py_max_key] at hk
      | cons x t =>
        rw [hts] at hk
        simp only [py_max_key, Option.some.injEq] at hk
        obtain ⟨hall, hxle, hdec⟩ := py_max_go_spec t x
        rw [hk] at hall hxle hdec
        have hdecomp : ∃ P Q, type_scores search (search_text component_name text)
            = P ++ c :: Q ∧ (∀ y ∈ P, y.2 < c.2) ∧ (∀ y ∈ Q, y.2 ≤ c.2) := by
          rcases hdec with hcx | ⟨p, q, hpq, hlt, hstrict⟩
          · exact ⟨[], t, by rw [hts, hcx]; rfl, by simp, hall⟩
          · refine ⟨x :: p, q, by rw [hts, hpq, List.cons_append], ?_, ?_⟩
            · intro y hy
              rcases List.mem_cons.mp hy with hyx | hyp
              · rw [hyx]
                exact hlt
              · exact hstrict y hyp
            · intro y hy
              have : y ∈ t := by
                rw [hpq]
                exact List.mem_append.mpr (Or.inr (List.mem_cons_of_mem c hy))
              exact hall y this
        obtain ⟨P, Q, hPQ, hPlt, hQle⟩ := hdecomp
        rw [type_scores] at hPQ
        obtain ⟨L1, fp0, L2, hL, hfp0, hP, hQ⟩ := filterMap_decomp _ type_patterns P c Q hPQ
        have hfp0' : 0 < type_score search (search_text component_name text) fp0.2
            ∧ fp0.1 = c.1 ∧ type_score search (search_text component_name text) fp0.2 = c.2 := by
          by_cases hs : 0 < type_score search (search_text component_name text) fp0.2
          · simp only [hs, if_true, Option.some.injEq] at hfp0
            exact ⟨hs, by rw [← hfp0], by rw [← hfp0]⟩
          · simp [hs] at hfp0
        refine ⟨L1, fp0.2, L2, ?_, ?_, ?_, ?_⟩
        · rw [hL, ← hfam, ← hfp0'.2.1]
        · exact hfp0'.1
        · intro fp hfp
          by_cases hs : 0 < type_score search (search_text component_name text) fp.2
          · have hmem : (fp.1, type_score search (search_text component_name text) fp.2)
                ∈ P := by
              rw [← hP]
              exact List.mem_filterMap.mpr ⟨fp, hfp, by simp [hs]⟩
            have := hPlt _ hmem
            omega
          · omega
        · intro fp hfp
          by_cases hs : 0 < type_score search (search_text component_name text) fp.2
          · have hmem : (fp.1, type_score search (search_text component_name text) fp.2)
                ∈ Q := by
              rw [← hQ]
              exact List.mem_filterMap.mpr ⟨fp, hfp, by simp [hs]⟩
            have := hQle _ hmem
            omega
          · omega
  · intro fp _
    exact List.countP_le_length _

/-- Witness for C7: with a never-matching oracle the classifier returns
nothing, and with an always-matching oracle it returns Resistor, the first
family of the enumeration, which then satisfies the first-maximum
decomposition. -/
theorem C7_classifier_spec_witness :
    detect_component_type (fun _ _ => false) "some text" "part" = none
    ∧ (∃ pre pats post,
        type_patterns = pre ++ ("Resistor", pats) :: post
        ∧ 0 < type_score (fun _ _ => true) (search_text "part" "some text") pats
        ∧ (∀ fp ∈ pre,
            type_score (fun _ _ => true) (search_text "part" "some text") fp.2
              < type_score (fun _ _ => true) (search_text "part" "some text") pats)
        ∧ (∀ fp ∈ post,
            type_score (fun _ _ => true) (search_text "part" "some text") fp.2
              ≤ type_score (fun _ _ => true) (search_text "part" "some text") pats)) :=
  ⟨(C7_classifier_spec (fun _ _ => false) "some text" "part").1.mpr
     (by intro fp _; simp [type_score]),
   (C7_classifier_spec (fun _ _ => true) "some text" "part").2.1 "Resistor" (by rfl)⟩

/-- With a findall oracle that matches nothing, every rule body succeeds with
no collected fragments. -/
lemma run_spec_rules_of_no_matches (findall : String → String → List (List String))
    (text : String) (h : ∀ p, findall p text = []) :
    ∀ rs : List SpecRule, run_spec_rules findall text rs = Except.ok [] := by
  intro rs
  induction rs with
  | nil => rfl
  | cons r rs ih =>
    simp [run_spec_rules, apply_spec_rule, h, format_matches, ih]

/-- C8: classification and specification extraction return normally for every
text, name and component type: an exception inside the extraction rule body —
such as the IndexError the six string-indexing rules raise on a one-character
capture — never escapes the extractor boundary, which turns it into the
absent result; and when no pattern produces a match at all, the extractor
returns no specification string and the classifier returns no label. -/
theorem C8_no_match_no_error (search : String → String → Bool)
    (findall : String → String → List (List String))
    (text component_name : String) (component_type : Option String) :
    ((∀ p, findall p text = []) →
      extract_component_specifications findall text component_type = none)
    ∧ (∀ e, run_spec_rules findall text (spec_rules_for component_type)
        = Except.error e →
      extract_component_specifications findall text component_type = none)
    ∧ ((∀ p t, search p t = false) →
      detect_component_type search text component_name = none) := by
  refine ⟨?_, ?_, ?_⟩
  · intro h
    simp [extract_component_specifications,
      run_spec_rules_of_no_matches findall text h (spec_rules_for component_type)]
  · intro e he
    simp [extract_component_specifications, he]
  · intro h
    have hts : type_scores search (search_text component_name text) = [] := by
      rw [type_scores, List.filterMap_eq_nil_iff]
      intro fp _
      simp [type_score, h]
    rw [detect_component_type, hts]
    simp [py_max_key]

/-- Witness for C8: an empty findall oracle gives the absent extraction
result; an oracle returning the one-character capture 4 for the
microcontroller Flash pattern makes that rule raise internally (string index
1 out of range) and the boundary still returns the absent result rather than
an error; a never-matching search oracle gives no classification label. -/
theorem C8_no_match_no_error_witness :
    extract_component_specifications (fun _ _ => []) "datasheet text" (some "Resistor") = none
    ∧ run_spec_rules
        (fun p _ => if p = "(?i)flash[:=]\\s*([^\\s,;]+)" then [["4"]] else [])
        "flash: 4" (spec_rules_for (some "Microcontroller")) = Except.error ()
    ∧ extract_component_specifications
        (fun p _ => if p = "(?i)flash[:=]\\s*([^\\s,;]+)" then [["4"]] else [])
        "flash: 4" (some "Microcontroller") = none
    ∧ detect_component_type (fun _ _ => false) "datasheet text" "r1" = none :=
  ⟨(C8_no_match_no_error (fun _ _ => false) (fun _ _ => []) "datasheet text" "r1"
      (some "Resistor")).1 (fun _ => rfl),
   by rfl,
   (C8_no_match_no_error (fun _ _ => false)
      (fun p _ => if p = "(?i)flash[:=]\\s*([^\\s,;]+)" then [["4"]] else [])
      "flash: 4" "r1" (some "Microcontroller")).2.1 () (by rfl),
   (C8_no_match_no_error (fun _ _ => false) (fun _ _ => []) "datasheet text" "r1"
      (some "Resistor")).2.2 (fun _ _ => rfl)⟩

end StockInventory
